import Mathlib

/-
  Verification of the idempotent context-registration core of
  tfx/orchestration/portable/mlmd/context_lib.py and of the python
  execution dispatch layer
  (tfx/orchestration/python_execution_binary/python_execution_lib.py).

  The MLMD store is shallowly embedded as an explicit record of
  registered types, contexts and parent-context edges; each store
  primitive of the ml-metadata client used by the source
  (get_context_by_type_and_name, put_contexts, put_parent_contexts)
  is a pure function on that record which reports a unique-key
  violation as the error value Err.alreadyExists, mirroring the
  AlreadyExistsError exception of the client.  Concurrent writers that
  may land between the initial failed lookup and the insert attempt of
  _register_context_if_not_exist are modelled by an explicit
  interference function applied to the store at that point.
-/

set_option autoImplicit false

namespace Tfx

/-- Property value kinds of the metadata store (metadata_store_pb2
PropertyType); the floating-point kind is omitted from the model. -/
inductive PropertyType where
  | INT
  | STRING
  | BOOLEAN
deriving DecidableEq, Repr

/-- Runtime metadata values (metadata_store_pb2.Value); each value carries
its runtime kind as its constructor tag. -/
inductive MValue where
  | intValue (v : Int)
  | stringValue (v : String)
  | boolValue (v : Bool)
deriving DecidableEq, Repr

/-- data_types_utils.get_metadata_value_type: the runtime kind of a value. -/
def get_metadata_value_type : MValue → PropertyType
  | .intValue _ => .INT
  | .stringValue _ => .STRING
  | .boolValue _ => .BOOLEAN

/-- pipeline_pb2.Value: a wrapper holding a concrete field value. -/
structure PValue where
  field_value : MValue
deriving DecidableEq, Repr

/-- data_types_utils.get_value on a pipeline_pb2.Value: returns the
underlying runtime value. -/
def get_value (v : PValue) : MValue := v.field_value

/-- metadata_store_pb2.ContextType: a named type descriptor with a
property schema.  The id is store-assigned; in transient descriptors
(such as ContextSpec.type) it is the proto default 0. -/
structure ContextType where
  id : Nat := 0
  name : String
  properties : List (String × PropertyType) := []
deriving DecidableEq, Repr

/-- metadata_store_pb2.Context: a materialized context entity. -/
structure Context where
  id : Nat := 0
  type_id : Nat
  name : String
  properties : List (String × MValue) := []
  custom_properties : List (String × MValue) := []
deriving DecidableEq, Repr

/-- metadata_store_pb2.ParentContext: a directed parent-to-child edge. -/
structure ParentContext where
  parent_id : Nat
  child_id : Nat
deriving DecidableEq, Repr

/-- pipeline_pb2.ContextSpec: declarative specification of a context. -/
structure ContextSpec where
  type : ContextType
  name : PValue
  properties : List (String × MValue) := []
deriving DecidableEq, Repr

/-- The error outcomes of the registration core: the store's
AlreadyExistsError, the RuntimeError of _generate_context_proto for a
schema mismatch (carrying key, declared kind and actual kind), the
AssertionError of the post-conflict re-read (the registration race), and
the AssertionError for a non-string context name. -/
inductive Err where
  | alreadyExists
  | schemaMismatch (key : String) (expected : PropertyType) (actual : PropertyType)
  | registrationRace (context_name : String)
  | nameNotString
deriving DecidableEq, Repr

/-- The MLMD store state: registered types, contexts, parent-context
edges, and the next store-assigned ids. -/
structure Store where
  types : List ContextType := []
  contexts : List Context := []
  parent_contexts : List ParentContext := []
  next_type_id : Nat := 1
  next_context_id : Nat := 1
deriving DecidableEq, Repr

/-- store.get_context_by_type_and_name: resolves the type by name, then
finds the context with that type id and the given name. -/
def Store.get_context_by_type_and_name (s : Store) (type_name context_name : String) :
    Option Context :=
  match s.types.find? (fun t => t.name == type_name) with
  | none => none
  | some t => s.contexts.find? (fun c => c.type_id == t.id && c.name == context_name)

/-- store.put_contexts on a one-element list: fails with AlreadyExists on
a (type_id, name) collision, otherwise persists the context under a
fresh store-assigned id and returns that id. -/
def Store.put_contexts (s : Store) (c : Context) : Except Err (Store × Nat) :=
  if s.contexts.any (fun c0 => c0.type_id == c.type_id && c0.name == c.name) then
    .error .alreadyExists
  else
    .ok ({ s with
            contexts := s.contexts ++ [{ c with id := s.next_context_id }],
            next_context_id := s.next_context_id + 1 },
         s.next_context_id)

/-- store.put_parent_contexts on a one-element list: fails with
AlreadyExists on a duplicate ordered pair, otherwise appends the edge. -/
def Store.put_parent_contexts (s : Store) (e : ParentContext) : Except Err Store :=
  if s.parent_contexts.any
      (fun e0 => e0.parent_id == e.parent_id && e0.child_id == e.child_id) then
    .error .alreadyExists
  else
    .ok { s with parent_contexts := s.parent_contexts ++ [e] }

/-- Modelled from the spec: common_utils.register_type_if_not_exist is
not under src; per section 4.1 the type registrar looks the type up by
name, inserts it with a store-assigned id if absent, and returns the
registered descriptor (with the store's schema when it already exists). -/
def register_type_if_not_exist (s : Store) (t : ContextType) : Store × ContextType :=
  match s.types.find? (fun t0 => t0.name == t.name) with
  | some t0 => (s, t0)
  | none =>
    let new_type : ContextType :=
      { id := s.next_type_id, name := t.name, properties := t.properties }
    ({ s with types := s.types ++ [new_type], next_type_id := s.next_type_id + 1 },
     new_type)

/-- Assignment into a proto map field keyed by strings: replaces the
entry when the key is present, otherwise appends it. -/
def assocSet {α : Type} (l : List (String × α)) (k : String) (v : α) :
    List (String × α) :=
  if l.any (fun kv => kv.1 == k) then
    l.map (fun kv => if kv.1 == k then (k, v) else kv)
  else l ++ [(k, v)]

/-- data_types_utils.set_metadata_value(result.properties[k], v). -/
def set_property (c : Context) (k : String) (v : MValue) : Context :=
  { c with properties := assocSet c.properties k v }

/-- data_types_utils.set_metadata_value(result.custom_properties[k], v). -/
def set_custom_property (c : Context) (k : String) (v : MValue) : Context :=
  { c with custom_properties := assocSet c.custom_properties k v }

/-- The property loop of _generate_context_proto: a declared property
whose key is in the schema must match the declared kind (else the
RuntimeError, modelled as Err.schemaMismatch); a key outside the schema
is stored as a custom property. -/
def build_properties (schema : List (String × PropertyType)) (result : Context) :
    List (String × MValue) → Except Err Context
  | [] => .ok result
  | (k, v) :: rest =>
    match List.lookup k schema with
    | some declared =>
      let actual := get_metadata_value_type v
      if declared = actual then
        build_properties schema (set_property result k v) rest
      else
        .error (.schemaMismatch k declared actual)
    | none => build_properties schema (set_custom_property result k v) rest

/-- The builder _generate_context_proto: registers the spec's type, asserts the
context name is a string, and builds the unpersisted context entity by
the property loop. -/
def _generate_context_proto (s : Store) (context_spec : ContextSpec) :
    Except Err (Store × Context) :=
  let reg := register_type_if_not_exist s context_spec.type
  match get_value context_spec.name with
  | .stringValue context_name =>
    let init : Context := { type_id := reg.2.id, name := context_name }
    match build_properties reg.2.properties init context_spec.properties with
    | .ok result => .ok (reg.1, result)
    | .error e => .error e
  | _ => .error .nameNotString

/-- The except-AlreadyExistsError clause of
put_parent_context_if_not_exists: a duplicate-edge report is swallowed
(the store state observed by the caller is unchanged); any other outcome
passes through unmodified. -/
def catch_already_exists (r : Except Err Store) (s : Store) : Except Err Store :=
  match r with
  | .error .alreadyExists => .ok s
  | other => other

/-- put_parent_context_if_not_exists: attempts the edge insert and treats
a duplicate-edge report as success. -/
def put_parent_context_if_not_exists (s : Store) (parent_id child_id : Nat) :
    Except Err Store :=
  catch_already_exists
    (s.put_parent_contexts { parent_id := parent_id, child_id := child_id }) s

/-- The parent-linking loop of _register_context_if_not_exist: one edge
registrar call per supplied parent context. -/
def link_parent_contexts (s : Store) (parent_contexts : List Context) (child_id : Nat) :
    Except Err Store :=
  match parent_contexts with
  | [] => .ok s
  | p :: rest =>
    match put_parent_context_if_not_exists s p.id child_id with
    | .ok s1 => link_parent_contexts s1 rest child_id
    | .error e => .error e

/-- The registrar _register_context_if_not_exist, with the writes of concurrent
registrants that land between the failed initial lookup and the insert
attempt modelled by the interference function applied to the store at
that point.  Fast path: a successful initial lookup returns the existing
context with the store untouched.  Slow path: generate the proto, try to
insert it; on AlreadyExists re-read by (type name, name) and fail with
the registration-race assertion if the re-read finds nothing; finally
link every supplied parent to the resulting context (this block follows
the try/except in the source and runs on both the insert-success and the
conflict path). -/
def _register_context_if_not_exist_during (interfere : Store → Store) (s : Store)
    (context_spec : ContextSpec) (parent_contexts : List Context) :
    Except Err (Store × Context) :=
  let context_type_name := context_spec.type.name
  match get_value context_spec.name with
  | .stringValue context_name =>
    match s.get_context_by_type_and_name context_type_name context_name with
    | some context => .ok (s, context)
    | none =>
      let s1 := interfere s
      match _generate_context_proto s1 context_spec with
      | .error e => .error e
      | .ok (s2, proto) =>
        let attempt : Except Err (Store × Context) :=
          match s2.put_contexts proto with
          | .ok (s3, context_id) => .ok (s3, { proto with id := context_id })
          | .error .alreadyExists =>
            match s2.get_context_by_type_and_name context_type_name context_name with
            | some context => .ok (s2, context)
            | none => .error (.registrationRace context_name)
          | .error e => .error e
        match attempt with
        | .error e => .error e
        | .ok (s3, context) =>
          match link_parent_contexts s3 parent_contexts context.id with
          | .ok s4 => .ok (s4, context)
          | .error e => .error e
  | _ => .error .nameNotString

/-- The registrar _register_context_if_not_exist run without concurrent interference
(the sequential semantics of the source). -/
def _register_context_if_not_exist (s : Store) (context_spec : ContextSpec)
    (parent_contexts : List Context) : Except Err (Store × Context) :=
  _register_context_if_not_exist_during id s context_spec parent_contexts

/-- register_context_if_not_exists: the public wrapper that builds a
ContextSpec from the bare type name and context name and delegates to
_register_context_if_not_exist (its timing and telemetry calls are
no-ops). -/
def register_context_if_not_exists (s : Store) (context_type_name context_name : String)
    (parent_contexts : List Context) : Except Err (Store × Context) :=
  let context_spec : ContextSpec :=
    { name := { field_value := .stringValue context_name },
      type := { name := context_type_name } }
  _register_context_if_not_exist s context_spec parent_contexts

/-- Modelled from the spec: tfx.dsl.compiler.constants is not under src;
the batch orchestrator distinguishes the pipeline context type name. -/
def PIPELINE_CONTEXT_TYPE_NAME : String := "pipeline"

/-- Modelled from the spec: tfx.dsl.compiler.constants is not under src;
the batch orchestrator distinguishes the pipeline-run context type name. -/
def PIPELINE_RUN_CONTEXT_TYPE_NAME : String := "pipeline_run"

/-- Pass 1 of prepare_contexts: registers every spec whose type name is
the pipeline type, with no parents, in encounter order. -/
def prepare_pass1 (s : Store) : List ContextSpec → Except Err (Store × List Context)
  | [] => .ok (s, [])
  | spec :: rest =>
    if spec.type.name == PIPELINE_CONTEXT_TYPE_NAME then
      match _register_context_if_not_exist s spec [] with
      | .error e => .error e
      | .ok (s1, c) =>
        match prepare_pass1 s1 rest with
        | .error e => .error e
        | .ok (s2, cs) => .ok (s2, c :: cs)
    else prepare_pass1 s rest

/-- Pass 2 of prepare_contexts: registers every remaining spec in
original order; a pipeline-run spec gets all pipeline contexts of pass 1
as parents, any other spec gets no parents. -/
def prepare_pass2 (s : Store) (pipeline_contexts : List Context) :
    List ContextSpec → Except Err (Store × List Context)
  | [] => .ok (s, [])
  | spec :: rest =>
    if spec.type.name == PIPELINE_CONTEXT_TYPE_NAME then
      prepare_pass2 s pipeline_contexts rest
    else
      let parent_contexts :=
        if spec.type.name == PIPELINE_RUN_CONTEXT_TYPE_NAME then pipeline_contexts
        else []
      match _register_context_if_not_exist s spec parent_contexts with
      | .error e => .error e
      | .ok (s1, c) =>
        match prepare_pass2 s1 pipeline_contexts rest with
        | .error e => .error e
        | .ok (s2, cs) => .ok (s2, c :: cs)

/-- prepare_contexts: the batch orchestrator.  In the source, pass 1
appends each pipeline context to both the result list and
pipeline_contexts, so the result list after pass 1 equals
pipeline_contexts; pass 2 appends the remaining registrations. -/
def prepare_contexts (s : Store) (node_contexts : List ContextSpec) :
    Except Err (Store × List Context) :=
  match prepare_pass1 s node_contexts with
  | .error e => .error e
  | .ok (s1, pipeline_contexts) =>
    match prepare_pass2 s1 pipeline_contexts node_contexts with
    | .error e => .error e
    | .ok (s2, rest) => .ok (s2, pipeline_contexts ++ rest)

/-- Sequential registration of a list of specs, each with the parent set
chosen by a fixed function of the spec; reference shape used to state
the two-pass structure of prepare_contexts. -/
def register_sequence (s : Store) (parents_for : ContextSpec → List Context) :
    List ContextSpec → Except Err (Store × List Context)
  | [] => .ok (s, [])
  | spec :: rest =>
    match _register_context_if_not_exist s spec (parents_for spec) with
    | .error e => .error e
    | .ok (s1, c) =>
      match register_sequence s1 parents_for rest with
      | .error e => .error e
      | .ok (s2, cs) => .ok (s2, c :: cs)

/-- The batch orchestrator as the spec states it: register the
pipeline-typed specs first (no parents), then the remaining specs in
original order, a pipeline-run spec receiving all pipeline contexts as
parents and any other spec none; output is pipeline contexts followed by
the rest.  Reference definition for the refinement statement about
prepare_contexts. -/
def prepare_contexts_spec (s : Store) (specs : List ContextSpec) :
    Except Err (Store × List Context) :=
  match register_sequence s (fun _ => [])
      (specs.filter fun sp => sp.type.name == PIPELINE_CONTEXT_TYPE_NAME) with
  | .error e => .error e
  | .ok (s1, pipeline_contexts) =>
    match register_sequence s1
        (fun sp =>
          if sp.type.name == PIPELINE_RUN_CONTEXT_TYPE_NAME then pipeline_contexts
          else [])
        (specs.filter fun sp => !(sp.type.name == PIPELINE_CONTEXT_TYPE_NAME)) with
    | .error e => .error e
    | .ok (s2, rest) => .ok (s2, pipeline_contexts ++ rest)

/-
  The python execution dispatch layer
  (python_execution_lib._run_python_custom_component and run).  External
  collaborators (class import, the driver operator, the executor
  dispatcher, file output) are modelled as abstract actions recorded in
  a trace, with their results supplied by an environment.
-/

/-- The executable spec variants accepted by the dispatcher; each carries
the class path used for the eager import (for a Beam spec the path of
its embedded python executor spec). -/
inductive ExecutableSpec where
  | pythonClass (path : String)
  | beam (python_executor_spec_path : String)
deriving DecidableEq, Repr

/-- The helper _import_class_path: the class path imported for either variant. -/
def ExecutableSpec.class_path : ExecutableSpec → String
  | .pythonClass p => p
  | .beam p => p

/-- data_types.ExecutionInfo, reduced to the field the dispatcher uses. -/
structure ExecutionInfo where
  execution_output_uri : String
deriving DecidableEq, Repr

/-- The observable actions of one dispatch. -/
inductive DispatchAction where
  | importClassPath (path : String)
  | runDriver (mlmd_connection_config : String)
  | runExecutor
  | writeOutput (uri : String) (payload : String)
deriving DecidableEq, Repr

/-- The environment of one dispatch: the value of the
tfx_mlmd_connection_config_b64 flag, and the (serialized) results the
driver run or the executor run would produce; none models a run that
returns no truthy result. -/
structure PyEnv where
  mlmd_connection_config_flag : Option String
  driver_result : Option String
  executor_result : Option String
deriving DecidableEq, Repr

/-- Truthiness of the absl string flag value: unset (None) and the empty
string are falsy. -/
def flag_is_set : Option String → Bool
  | none => false
  | some s => !s.isEmpty

/-- The dispatcher _run_python_custom_component: eagerly imports the class path; runs a
driver (with the deserialized MLMD connection config) when the flag is
truthy, otherwise runs an executor; and writes the serialized run result
to execution_info.execution_output_uri exactly when the run produced a
result. -/
def _run_python_custom_component (env : PyEnv) (executable_spec : ExecutableSpec)
    (execution_info : ExecutionInfo) : List DispatchAction :=
  let import_action := DispatchAction.importClassPath executable_spec.class_path
  let run_step : DispatchAction × Option String :=
    match env.mlmd_connection_config_flag with
    | some cfg =>
      if !cfg.isEmpty then (DispatchAction.runDriver cfg, env.driver_result)
      else (DispatchAction.runExecutor, env.executor_result)
    | none => (DispatchAction.runExecutor, env.executor_result)
  let write_actions :=
    match run_step.2 with
    | some payload =>
      [DispatchAction.writeOutput execution_info.execution_output_uri payload]
    | none => []
  import_action :: run_step.1 :: write_actions

/-- run: logs and delegates to _run_python_custom_component. -/
def run (env : PyEnv) (executable_spec : ExecutableSpec)
    (execution_info : ExecutionInfo) : List DispatchAction :=
  _run_python_custom_component env executable_spec execution_info

/-
  Helper lemmas.
-/

/-- The edge-duplicate test of put_parent_contexts decides membership. -/
theorem edge_any_iff (l : List ParentContext) (pid cid : Nat) :
    (l.any fun e0 => e0.parent_id == pid && e0.child_id == cid) = true ↔
      ParentContext.mk pid cid ∈ l := by
  simp only [List.any_eq_true, Bool.and_eq_true, beq_iff_eq]
  constructor
  · rintro ⟨⟨p, c⟩, hmem, h1, h2⟩
    subst h1; subst h2; exact hmem
  · intro h
    exact ⟨ParentContext.mk pid cid, h, rfl, rfl⟩

/-- The fast path of the registrar: a successful initial lookup returns
the found context and the store unchanged, whatever the interference,
the parents and the rest of the algorithm. -/
theorem register_during_fast_path (interfere : Store → Store) (s : Store)
    (context_spec : ContextSpec) (parent_contexts : List Context)
    (context_name : String) (c : Context)
    (hname : get_value context_spec.name = .stringValue context_name)
    (hfound : s.get_context_by_type_and_name context_spec.type.name context_name = some c) :
    _register_context_if_not_exist_during interfere s context_spec parent_contexts =
      .ok (s, c) := by
  simp only [_register_context_if_not_exist_during, hname, hfound]

/-- A single edge-registrar call always succeeds on the concrete store:
it adds the requested edge when absent and leaves the store unchanged
when present, and it preserves every existing edge. -/
theorem put_parent_ok (s : Store) (pid cid : Nat) :
    ∃ s1, put_parent_context_if_not_exists s pid cid = .ok s1 ∧
      ParentContext.mk pid cid ∈ s1.parent_contexts ∧
      ∀ e, e ∈ s.parent_contexts → e ∈ s1.parent_contexts := by
  unfold put_parent_context_if_not_exists Store.put_parent_contexts catch_already_exists
  by_cases h : (s.parent_contexts.any
      fun e0 => e0.parent_id == pid && e0.child_id == cid) = true
  · refine ⟨s, ?_, (edge_any_iff _ _ _).1 h, fun e he => he⟩
    simp [h]
  · refine ⟨{ s with parent_contexts := s.parent_contexts ++ [ParentContext.mk pid cid] },
      ?_, ?_, ?_⟩
    · simp [h]
    · simp
    · intro e he; simp [he]

/-- The parent-linking loop always succeeds on the concrete store, ends
with an edge from every supplied parent to the child, and preserves
every pre-existing edge. -/
theorem link_parent_contexts_ok (parents : List Context) (s : Store) (cid : Nat) :
    ∃ s1, link_parent_contexts s parents cid = .ok s1 ∧
      (∀ p, p ∈ parents → ParentContext.mk p.id cid ∈ s1.parent_contexts) ∧
      (∀ e, e ∈ s.parent_contexts → e ∈ s1.parent_contexts) := by
  induction parents generalizing s with
  | nil => exact ⟨s, rfl, by simp, fun e he => he⟩
  | cons p rest ih =>
    obtain ⟨s1, h1, hmem, hpres⟩ := put_parent_ok s p.id cid
    obtain ⟨s2, h2, hmem2, hpres2⟩ := ih s1
    refine ⟨s2, ?_, ?_, fun e he => hpres2 _ (hpres _ he)⟩
    · unfold link_parent_contexts
      rw [h1]
      exact h2
    · intro q hq
      rcases List.mem_cons.mp hq with hq | hq
      · subst hq; exact hpres2 _ hmem
      · exact hmem2 _ hq

/-- The type registrar leaves contexts and edges untouched and ends with
the returned descriptor as the first registered type of that name. -/
theorem register_type_if_not_exist_find (s : Store) (t : ContextType) :
    (register_type_if_not_exist s t).1.types.find? (fun t0 => t0.name == t.name) =
      some (register_type_if_not_exist s t).2 ∧
    (register_type_if_not_exist s t).1.contexts = s.contexts ∧
    (register_type_if_not_exist s t).1.parent_contexts = s.parent_contexts ∧
    (register_type_if_not_exist s t).1.next_context_id = s.next_context_id := by
  unfold register_type_if_not_exist
  cases h : s.types.find? (fun t0 => t0.name == t.name) with
  | some t0 => simp [h]
  | none => simp [h, List.find?_append, List.find?]

/-- The property loop only writes the property maps: the name and the
type id of its result are those of the accumulator. -/
theorem build_properties_shape (schema : List (String × PropertyType))
    (props : List (String × MValue)) (res : Context) (c : Context)
    (h : build_properties schema res props = .ok c) :
    c.name = res.name ∧ c.type_id = res.type_id := by
  induction props generalizing res with
  | nil =>
    cases h
    exact ⟨rfl, rfl⟩
  | cons kv rest ih =>
    obtain ⟨k, v⟩ := kv
    simp only [build_properties] at h
    cases hl : List.lookup k schema with
    | some d =>
      simp only [hl] at h
      split at h
      · simpa [set_property] using ih (set_property res k v) h
      · cases h
    | none =>
      simp only [hl] at h
      simpa [set_custom_property] using ih (set_custom_property res k v) h

/-- Characterization of a successful _generate_context_proto: the store
it returns is the type registrar's store, and the generated proto
carries the registered type's id and the spec's context name. -/
theorem generate_ok_fields (s : Store) (context_spec : ContextSpec)
    (context_name : String) (s2 : Store) (proto : Context)
    (hname : get_value context_spec.name = .stringValue context_name)
    (hgen : _generate_context_proto s context_spec = .ok (s2, proto)) :
    s2 = (register_type_if_not_exist s context_spec.type).1 ∧
    proto.type_id = (register_type_if_not_exist s context_spec.type).2.id ∧
    proto.name = context_name := by
  simp only [_generate_context_proto, hname] at hgen
  cases hb : build_properties (register_type_if_not_exist s context_spec.type).2.properties
      { type_id := (register_type_if_not_exist s context_spec.type).2.id,
        name := context_name }
      context_spec.properties with
  | ok c =>
    rw [hb] at hgen
    cases hgen
    obtain ⟨h1, h2⟩ := build_properties_shape _ _ _ _ hb
    exact ⟨rfl, h2, h1⟩
  | error e =>
    rw [hb] at hgen
    cases hgen

/-- After a successful registration with no parents, the lookup by
(type name, context name) finds exactly the returned context. -/
theorem register_then_lookup (s : Store) (context_spec : ContextSpec)
    (context_name : String) (s1 : Store) (c1 : Context)
    (hname : get_value context_spec.name = .stringValue context_name)
    (h : _register_context_if_not_exist s context_spec [] = .ok (s1, c1)) :
    s1.get_context_by_type_and_name context_spec.type.name context_name = some c1 := by
  simp only [_register_context_if_not_exist, _register_context_if_not_exist_during,
    hname, id_eq, link_parent_contexts] at h
  cases hms : s.get_context_by_type_and_name context_spec.type.name context_name with
  | some c =>
    rw [hms] at h
    cases h
    exact hms
  | none =>
    rw [hms] at h
    cases hgen : _generate_context_proto s context_spec with
    | error e =>
      rw [hgen] at h
      cases h
    | ok pr =>
      obtain ⟨s2, proto⟩ := pr
      rw [hgen] at h
      obtain ⟨hs2, hptid, hpname⟩ :=
        generate_ok_fields s context_spec context_name s2 proto hname hgen
      obtain ⟨hfind, hctx, hedg, hnid⟩ :=
        register_type_if_not_exist_find s context_spec.type
      simp only [Store.put_contexts] at h
      by_cases hc : (s2.contexts.any
          fun c0 => c0.type_id == proto.type_id && c0.name == proto.name) = true
      · rw [if_pos hc] at h
        cases hre : s2.get_context_by_type_and_name context_spec.type.name context_name with
        | some c =>
          rw [hre] at h
          cases h
          exact hre
        | none =>
          rw [hre] at h
          cases h
      · rw [if_neg hc] at h
        cases h
        unfold Store.get_context_by_type_and_name
        rw [← hs2] at hfind
        simp only [hfind]
        rw [List.find?_append]
        have hnone : (s2.contexts.find? fun c =>
            c.type_id == (register_type_if_not_exist s context_spec.type).2.id &&
              c.name == context_name) = none := by
          rw [List.find?_eq_none]
          intro x hx hpx
          apply hc
          rw [List.any_eq_true]
          refine ⟨x, hx, ?_⟩
          rw [hptid, hpname]
          exact hpx
        rw [hnone]
        simp [List.find?, hptid, hpname]

/-
  Claim theorems.
-/

/-- Claim C2: if the store already holds a context with the spec's
(type name, context name) pair, _register_context_if_not_exist returns
that existing context immediately with the store bit-for-bit unchanged:
no type insert, no entity insert and no parent-edge insert happen, even
for a non-empty parent list. -/
theorem register_fast_path_no_mutation (s : Store) (context_spec : ContextSpec)
    (parent_contexts : List Context) (context_name : String) (c : Context)
    (hname : get_value context_spec.name = .stringValue context_name)
    (hfound : s.get_context_by_type_and_name context_spec.type.name context_name = some c) :
    _register_context_if_not_exist s context_spec parent_contexts = .ok (s, c) :=
  register_during_fast_path id s context_spec parent_contexts context_name c hname hfound

def sW2 : Store :=
  { types := [{ id := 1, name := "pipeline" }],
    contexts := [{ id := 1, type_id := 1, name := "my_pipeline" }],
    next_type_id := 2, next_context_id := 2 }

def specW2 : ContextSpec :=
  { type := { name := "pipeline" }, name := { field_value := .stringValue "my_pipeline" } }

/-- Witness for C2 at a store that already holds the context, with a
non-empty parent list. -/
theorem register_fast_path_no_mutation_witness :
    _register_context_if_not_exist sW2 specW2 [{ id := 1, type_id := 1, name := "my_pipeline" }] =
      .ok (sW2, { id := 1, type_id := 1, name := "my_pipeline" }) :=
  register_fast_path_no_mutation sW2 specW2 _ "my_pipeline"
    { id := 1, type_id := 1, name := "my_pipeline" } rfl rfl

/-- Claim C10: the public wrapper register_context_if_not_exists returns
exactly the result of _register_context_if_not_exist applied to a
ContextSpec whose type has the given type name and whose name field
holds the given string value, on the same store with the same parents;
its timing and telemetry calls add nothing. -/
theorem register_wrapper_refines (s : Store) (context_type_name context_name : String)
    (parent_contexts : List Context) :
    register_context_if_not_exists s context_type_name context_name parent_contexts =
      _register_context_if_not_exist s
        { type := { name := context_type_name },
          name := { field_value := .stringValue context_name } }
        parent_contexts := rfl

/-- Claim C6: put_parent_context_if_not_exists attempts the edge insert
(adding the edge when absent); a duplicate-edge AlreadyExists report is
treated as success, so a second call on the same ordered pair returns
without error and without touching the store; and the except clause
passes any other failure through unmodified. -/
theorem put_parent_context_idempotent :
    (∀ s pid cid, ParentContext.mk pid cid ∉ s.parent_contexts →
      put_parent_context_if_not_exists s pid cid =
        .ok { s with parent_contexts := s.parent_contexts ++ [ParentContext.mk pid cid] }) ∧
    (∀ s pid cid, ParentContext.mk pid cid ∈ s.parent_contexts →
      put_parent_context_if_not_exists s pid cid = .ok s) ∧
    (∀ s s1 pid cid, put_parent_context_if_not_exists s pid cid = .ok s1 →
      put_parent_context_if_not_exists s1 pid cid = .ok s1) ∧
    (∀ r s e, r = .error e → e ≠ Err.alreadyExists → catch_already_exists r s = .error e) := by
  have habsent : ∀ s pid cid, ParentContext.mk pid cid ∉ s.parent_contexts →
      put_parent_context_if_not_exists s pid cid =
        .ok { s with parent_contexts := s.parent_contexts ++ [ParentContext.mk pid cid] } := by
    intro s pid cid h
    have hany : (s.parent_contexts.any
        fun e0 => e0.parent_id == pid && e0.child_id == cid) = false := by
      rw [← Bool.not_eq_true]
      intro hc
      exact h ((edge_any_iff _ _ _).1 hc)
    unfold put_parent_context_if_not_exists Store.put_parent_contexts catch_already_exists
    simp [hany]
  have hpresent : ∀ s pid cid, ParentContext.mk pid cid ∈ s.parent_contexts →
      put_parent_context_if_not_exists s pid cid = .ok s := by
    intro s pid cid h
    have hany := (edge_any_iff s.parent_contexts pid cid).2 h
    unfold put_parent_context_if_not_exists Store.put_parent_contexts catch_already_exists
    simp [hany]
  refine ⟨habsent, hpresent, ?_, ?_⟩
  · intro s s1 pid cid h
    by_cases hmem : ParentContext.mk pid cid ∈ s.parent_contexts
    · rw [hpresent s pid cid hmem] at h
      cases h
      exact hpresent s pid cid hmem
    · rw [habsent s pid cid hmem] at h
      cases h
      exact hpresent _ pid cid (by simp)
  · intro r s e hr hne
    subst hr
    unfold catch_already_exists
    cases e with
    | alreadyExists => exact absurd rfl hne
    | schemaMismatch k x a => rfl
    | registrationRace n => rfl
    | nameNotString => rfl

/-
  A concrete race scenario: the store holds the pipeline type and a
  parent context; a concurrent writer inserts the context named c
  between the failed initial lookup and the insert attempt, so the
  insert reports AlreadyExists and the re-read returns the winner.
-/

def pipelineTypeRace : ContextType := { id := 1, name := "pipeline" }

def parentRace : Context := { id := 1, type_id := 1, name := "p" }

def storeRace : Store :=
  { types := [pipelineTypeRace], contexts := [parentRace],
    next_type_id := 2, next_context_id := 2 }

def winnerRace : Context := { id := 2, type_id := 1, name := "c" }

def interfereRace : Store → Store := fun s =>
  { s with contexts := s.contexts ++ [winnerRace], next_context_id := 3 }

def specRace : ContextSpec :=
  { type := { name := "pipeline" }, name := { field_value := .stringValue "c" } }

/-- Claim C3: when the entity insert reports AlreadyExists, the
registrar does not surface that condition: it re-reads by (type name,
context name) and returns the re-read entity; if the re-read finds
nothing it fails with the fatal registration-race error (a plain error
return, never retried). -/
theorem register_conflict_reread (interfere : Store → Store) (s : Store)
    (context_spec : ContextSpec) (parent_contexts : List Context)
    (context_name : String) (s2 : Store) (proto : Context)
    (hname : get_value context_spec.name = .stringValue context_name)
    (hmiss : s.get_context_by_type_and_name context_spec.type.name context_name = none)
    (hgen : _generate_context_proto (interfere s) context_spec = .ok (s2, proto))
    (hput : s2.put_contexts proto = .error .alreadyExists) :
    (∀ c, s2.get_context_by_type_and_name context_spec.type.name context_name = some c →
      ∃ s4, _register_context_if_not_exist_during interfere s context_spec parent_contexts =
        .ok (s4, c)) ∧
    (s2.get_context_by_type_and_name context_spec.type.name context_name = none →
      _register_context_if_not_exist_during interfere s context_spec parent_contexts =
        .error (.registrationRace context_name)) := by
  constructor
  · intro c hre
    obtain ⟨s4, hlink, -, -⟩ := link_parent_contexts_ok parent_contexts s2 c.id
    refine ⟨s4, ?_⟩
    simp only [_register_context_if_not_exist_during, hname, hmiss, hgen, hput, hre, hlink]
  · intro hre
    simp only [_register_context_if_not_exist_during, hname, hmiss, hgen, hput, hre]

/-- Witness for C3 at the concrete race scenario: the losing registrant
gets the winning writer's context back. -/
theorem register_conflict_reread_witness :
    ∃ s4, _register_context_if_not_exist_during interfereRace storeRace specRace [] =
      .ok (s4, winnerRace) := by
  have h := (register_conflict_reread interfereRace storeRace specRace []
      "c" (interfereRace storeRace) { type_id := 1, name := "c" }
      rfl rfl rfl rfl).1 winnerRace rfl
  exact h

/-- Claim C1 counterexample: at the concrete race scenario with the
non-empty parent list, the initial lookup finds nothing and the insert
attempt reports AlreadyExists, yet the registrar does establish the
parent edge (parent id 1, child id 2) in that branch, so the resulting
store's edge list is not empty. -/
theorem register_conflict_skips_linking_cex :
    storeRace.get_context_by_type_and_name "pipeline" "c" = none ∧
    (interfereRace storeRace).put_contexts { type_id := 1, name := "c" } =
      .error .alreadyExists ∧
    _register_context_if_not_exist_during interfereRace storeRace specRace [parentRace] =
      .ok ({ types := [pipelineTypeRace], contexts := [parentRace, winnerRace],
             parent_contexts := [ParentContext.mk 1 2],
             next_type_id := 2, next_context_id := 3 }, winnerRace) :=
  ⟨rfl, rfl, rfl⟩

/-- Claim C1 amended: in the AlreadyExists conflict branch with a
successful re-read, the registrar does establish parent edges: the
parent-linking block follows the try/except in the source and runs on
the conflict path as well, so every supplied parent ends up linked to
the winning writer's context. -/
theorem register_conflict_links_parents (interfere : Store → Store) (s : Store)
    (context_spec : ContextSpec) (parent_contexts : List Context)
    (context_name : String) (s2 : Store) (proto : Context) (c : Context)
    (hname : get_value context_spec.name = .stringValue context_name)
    (hmiss : s.get_context_by_type_and_name context_spec.type.name context_name = none)
    (hgen : _generate_context_proto (interfere s) context_spec = .ok (s2, proto))
    (hput : s2.put_contexts proto = .error .alreadyExists)
    (hre : s2.get_context_by_type_and_name context_spec.type.name context_name = some c) :
    ∃ s4, _register_context_if_not_exist_during interfere s context_spec parent_contexts =
        .ok (s4, c) ∧
      ∀ p, p ∈ parent_contexts → ParentContext.mk p.id c.id ∈ s4.parent_contexts := by
  obtain ⟨s4, hlink, hmem, -⟩ := link_parent_contexts_ok parent_contexts s2 c.id
  refine ⟨s4, ?_, hmem⟩
  simp only [_register_context_if_not_exist_during, hname, hmiss, hgen, hput, hre, hlink]

/-- Witness for the amended C1 at the concrete race scenario: the losing
registrant links its parent (id 1) to the winner (id 2). -/
theorem register_conflict_links_parents_witness :
    ∃ s4, _register_context_if_not_exist_during interfereRace storeRace specRace [parentRace] =
        .ok (s4, winnerRace) ∧ ParentContext.mk 1 2 ∈ s4.parent_contexts := by
  obtain ⟨s4, h1, h2⟩ := register_conflict_links_parents interfereRace storeRace specRace
    [parentRace] "c" (interfereRace storeRace) { type_id := 1, name := "c" } winnerRace
    rfl rfl rfl rfl rfl
  exact ⟨s4, h1, h2 parentRace (by simp)⟩

/-- Claim C4: calling the registrar twice in sequence with the identical
spec and no parents returns the same entity (in particular the same id):
the second call returns exactly the entity created or found by the
first, with the store unchanged. -/
theorem register_idempotent (s : Store) (context_spec : ContextSpec)
    (s1 : Store) (c1 : Context)
    (h : _register_context_if_not_exist s context_spec [] = .ok (s1, c1)) :
    _register_context_if_not_exist s1 context_spec [] = .ok (s1, c1) := by
  cases hv : get_value context_spec.name with
  | stringValue cn =>
    have hlook := register_then_lookup s context_spec cn s1 c1 hv h
    exact register_during_fast_path id s1 context_spec [] cn c1 hv hlook
  | intValue n =>
    simp [_register_context_if_not_exist, _register_context_if_not_exist_during, hv] at h
  | boolValue b =>
    simp [_register_context_if_not_exist, _register_context_if_not_exist_during, hv] at h

/-- Witness for C4: registering the example spec on the empty store and
then again on the resulting store returns the identical context id 1. -/
theorem register_idempotent_witness :
    _register_context_if_not_exist sW2 specW2 []
      = .ok (sW2, { id := 1, type_id := 1, name := "my_pipeline" }) :=
  register_idempotent { } specW2 sW2 { id := 1, type_id := 1, name := "my_pipeline" } rfl

/-- assocSet on an absent key appends the binding. -/
theorem assocSet_absent {α : Type} (l : List (String × α)) (k : String) (v : α)
    (h : (l.any fun kv => kv.1 == k) = false) :
    assocSet l k v = l ++ [(k, v)] := by
  unfold assocSet
  simp [h]

/-- The property loop on a spec whose declared keys all match the schema:
keys in the schema land in properties, keys outside it in
custom_properties, in declaration order. -/
theorem build_properties_ok_of_match (schema : List (String × PropertyType))
    (props : List (String × MValue)) (res : Context)
    (hnodup : (props.map Prod.fst).Nodup)
    (hp : ∀ k v, (k, v) ∈ props → (res.properties.any fun kv => kv.1 == k) = false)
    (hc : ∀ k v, (k, v) ∈ props → (res.custom_properties.any fun kv => kv.1 == k) = false)
    (hmatch : ∀ k v d, (k, v) ∈ props → List.lookup k schema = some d →
      get_metadata_value_type v = d) :
    build_properties schema res props =
      .ok { res with
        properties := res.properties ++
          props.filter (fun kv => (List.lookup kv.1 schema).isSome),
        custom_properties := res.custom_properties ++
          props.filter (fun kv => (List.lookup kv.1 schema).isNone) } := by
  induction props generalizing res with
  | nil => simp [build_properties]
  | cons kv rest ih =>
    obtain ⟨k, v⟩ := kv
    have hknotin : k ∉ rest.map Prod.fst := by
      simp only [List.map_cons, List.nodup_cons] at hnodup
      exact hnodup.1
    have hnodup' : (rest.map Prod.fst).Nodup := by
      simp only [List.map_cons, List.nodup_cons] at hnodup
      exact hnodup.2
    have hkne : ∀ k', k' ∈ rest.map Prod.fst → (k == k') = false := by
      intro k' hmem
      rw [beq_eq_false_iff_ne]
      intro hkk
      exact hknotin (hkk ▸ hmem)
    have ihc0 : ∀ k' v', (k', v') ∈ rest →
        (res.custom_properties.any fun kv => kv.1 == k') = false :=
      fun k' v' hmem => hc k' v' (List.mem_cons_of_mem _ hmem)
    have ihp0 : ∀ k' v', (k', v') ∈ rest →
        (res.properties.any fun kv => kv.1 == k') = false :=
      fun k' v' hmem => hp k' v' (List.mem_cons_of_mem _ hmem)
    have ihm : ∀ k' v' d', (k', v') ∈ rest → List.lookup k' schema = some d' →
        get_metadata_value_type v' = d' :=
      fun k' v' d' hmem => hmatch k' v' d' (List.mem_cons_of_mem _ hmem)
    cases hl : List.lookup k schema with
    | some d =>
      have hm := hmatch k v d (by simp) hl
      simp only [build_properties, hl, if_pos hm.symm]
      have hset : set_property res k v =
          { res with properties := res.properties ++ [(k, v)] } := by
        unfold set_property
        rw [assocSet_absent _ _ _ (hp k v (by simp))]
      rw [hset]
      have ihp : ∀ k' v', (k', v') ∈ rest →
          ((res.properties ++ [(k, v)]).any fun kv => kv.1 == k') = false := by
        intro k' v' hmem
        rw [List.any_append]
        rw [ihp0 k' v' hmem]
        simp [List.any, hkne k' (List.mem_map_of_mem Prod.fst hmem)]
      have hrec := ih { res with properties := res.properties ++ [(k, v)] }
        hnodup' ihp ihc0 ihm
      rw [hrec]
      simp [List.filter_cons, hl, List.append_assoc]
    | none =>
      simp only [build_properties, hl]
      have hset : set_custom_property res k v =
          { res with custom_properties := res.custom_properties ++ [(k, v)] } := by
        unfold set_custom_property
        rw [assocSet_absent _ _ _ (hc k v (by simp))]
      rw [hset]
      have ihc : ∀ k' v', (k', v') ∈ rest →
          ((res.custom_properties ++ [(k, v)]).any fun kv => kv.1 == k') = false := by
        intro k' v' hmem
        rw [List.any_append]
        rw [ihc0 k' v' hmem]
        simp [List.any, hkne k' (List.mem_map_of_mem Prod.fst hmem)]
      have hrec := ih { res with custom_properties := res.custom_properties ++ [(k, v)] }
        hnodup' ihp0 ihc ihm
      rw [hrec]
      simp [List.filter_cons, hl, List.append_assoc]

/-- The property loop on a spec with a declared key whose value kind
disagrees with the schema fails with a schema-mismatch error carrying an
offending key, its declared kind and its actual kind. -/
theorem build_properties_error_of_mismatch (schema : List (String × PropertyType))
    (props : List (String × MValue)) (res : Context)
    (hbad : ∃ k v d, (k, v) ∈ props ∧ List.lookup k schema = some d ∧
      get_metadata_value_type v ≠ d) :
    ∃ k v d, (k, v) ∈ props ∧ List.lookup k schema = some d ∧
      get_metadata_value_type v ≠ d ∧
      build_properties schema res props =
        .error (.schemaMismatch k d (get_metadata_value_type v)) := by
  induction props generalizing res with
  | nil =>
    obtain ⟨k, v, d, hmem, -, -⟩ := hbad
    cases hmem
  | cons kv rest ih =>
    obtain ⟨k0, v0⟩ := kv
    cases hl : List.lookup k0 schema with
    | some d0 =>
      by_cases he : d0 = get_metadata_value_type v0
      · have hbad' : ∃ k v d, (k, v) ∈ rest ∧ List.lookup k schema = some d ∧
            get_metadata_value_type v ≠ d := by
          obtain ⟨k, v, d, hmem, hlk, hne⟩ := hbad
          rcases List.mem_cons.mp hmem with heq | hmem'
          · exfalso
            cases heq
            rw [hl] at hlk
            cases hlk
            exact hne he.symm
          · exact ⟨k, v, d, hmem', hlk, hne⟩
        obtain ⟨k, v, d, hmem, hlk, hne, heq⟩ := ih (set_property res k0 v0) hbad'
        refine ⟨k, v, d, List.mem_cons_of_mem _ hmem, hlk, hne, ?_⟩
        simp only [build_properties, hl, if_pos he]
        exact heq
      · refine ⟨k0, v0, d0, by simp, hl, fun hh => he hh.symm, ?_⟩
        simp only [build_properties, hl, if_neg he]
    | none =>
      have hbad' : ∃ k v d, (k, v) ∈ rest ∧ List.lookup k schema = some d ∧
          get_metadata_value_type v ≠ d := by
        obtain ⟨k, v, d, hmem, hlk, hne⟩ := hbad
        rcases List.mem_cons.mp hmem with heq | hmem'
        · exfalso
          cases heq
          rw [hl] at hlk
          cases hlk
        · exact ⟨k, v, d, hmem', hlk, hne⟩
      obtain ⟨k, v, d, hmem, hlk, hne, heq⟩ := ih (set_custom_property res k0 v0) hbad'
      refine ⟨k, v, d, List.mem_cons_of_mem _ hmem, hlk, hne, ?_⟩
      simp only [build_properties, hl]
      exact heq

/-- Claim C5: against a registered type schema, the context builder
places every declared property whose key is in the schema and whose
value kind equals the declared kind into the entity's properties; a
declared key in the schema whose value kind differs makes it fail with a
schema-mismatch error carrying the key, the expected kind and the actual
kind; and every declared key absent from the schema lands in
custom_properties instead of being rejected. -/
theorem generate_context_proto_schema (s : Store) (context_spec : ContextSpec)
    (ct : ContextType) (context_name : String)
    (hct : s.types.find? (fun t0 => t0.name == context_spec.type.name) = some ct)
    (hname : get_value context_spec.name = .stringValue context_name)
    (hnodup : (context_spec.properties.map Prod.fst).Nodup) :
    ((∀ k v d, (k, v) ∈ context_spec.properties →
        List.lookup k ct.properties = some d → get_metadata_value_type v = d) →
      _generate_context_proto s context_spec =
        .ok (s,
          { type_id := ct.id, name := context_name,
            properties := context_spec.properties.filter
              (fun kv => (List.lookup kv.1 ct.properties).isSome),
            custom_properties := context_spec.properties.filter
              (fun kv => (List.lookup kv.1 ct.properties).isNone) })) ∧
    ((∃ k v d, (k, v) ∈ context_spec.properties ∧
        List.lookup k ct.properties = some d ∧ get_metadata_value_type v ≠ d) →
      ∃ k v d, (k, v) ∈ context_spec.properties ∧
        List.lookup k ct.properties = some d ∧ get_metadata_value_type v ≠ d ∧
        _generate_context_proto s context_spec =
          .error (.schemaMismatch k d (get_metadata_value_type v))) := by
  have hreg : register_type_if_not_exist s context_spec.type = (s, ct) := by
    unfold register_type_if_not_exist
    simp only [hct]
  constructor
  · intro hmatch
    simp only [_generate_context_proto, hreg, hname]
    rw [build_properties_ok_of_match ct.properties context_spec.properties
      { type_id := ct.id, name := context_name } hnodup
      (fun k v _ => rfl) (fun k v _ => rfl) hmatch]
    simp
  · intro hbad
    obtain ⟨k, v, d, hmem, hlk, hne, heq⟩ :=
      build_properties_error_of_mismatch ct.properties context_spec.properties
        { type_id := ct.id, name := context_name } hbad
    refine ⟨k, v, d, hmem, hlk, hne, ?_⟩
    simp only [_generate_context_proto, hreg, hname]
    rw [heq]

def ctW5 : ContextType := { id := 1, name := "pipeline", properties := [("p", .INT)] }

def sW5 : Store := { types := [ctW5], next_type_id := 2 }

def specW5ok : ContextSpec :=
  { type := { name := "pipeline" }, name := { field_value := .stringValue "m" },
    properties := [("p", .intValue 3), ("q", .boolValue true)] }

def specW5bad : ContextSpec :=
  { type := { name := "pipeline" }, name := { field_value := .stringValue "m" },
    properties := [("p", .stringValue "oops")] }

/-- Witness for C5: against the schema declaring p as INT, a matching
declared p goes to properties and the undeclared q to
custom_properties; a string-valued p fails with the schema-mismatch
error carrying key p, expected INT and actual STRING. -/
theorem generate_context_proto_schema_witness :
    _generate_context_proto sW5 specW5ok =
      .ok (sW5,
        { type_id := 1, name := "m",
          properties := [("p", MValue.intValue 3)],
          custom_properties := [("q", MValue.boolValue true)] }) ∧
    _generate_context_proto sW5 specW5bad =
      .error (.schemaMismatch "p" .INT .STRING) := by
  constructor
  · have h := (generate_context_proto_schema sW5 specW5ok ctW5 "m"
      rfl rfl (by decide)).1
    have hmatch : ∀ k v d, (k, v) ∈ specW5ok.properties →
        List.lookup k ctW5.properties = some d → get_metadata_value_type v = d := by
      intro k v d hmem hlk
      rcases List.mem_cons.mp hmem with heq | hmem'
      · cases heq
        simp [ctW5, List.lookup] at hlk
        rw [← hlk]
        rfl
      · rcases List.mem_cons.mp hmem' with heq | hmem''
        · cases heq
          simp [ctW5, List.lookup] at hlk
        · cases hmem''
    exact h hmatch
  · have h := (generate_context_proto_schema sW5 specW5bad ctW5 "m"
      rfl rfl (by decide)).2
    obtain ⟨k, v, d, hmem, hlk, hne, heq⟩ := h
      ⟨"p", .stringValue "oops", .INT, by simp [specW5bad], by simp [ctW5], by decide⟩
    rcases List.mem_cons.mp hmem with hkv | hmem'
    · cases hkv
      simp [ctW5, List.lookup] at hlk
      rw [← hlk] at heq
      exact heq
    · cases hmem'

/-- Pass 1 registers exactly the pipeline-typed specs, in encounter
order, each with no parents. -/
theorem prepare_pass1_eq (specs : List ContextSpec) (s : Store) :
    prepare_pass1 s specs =
      register_sequence s (fun _ => [])
        (specs.filter fun sp => sp.type.name == PIPELINE_CONTEXT_TYPE_NAME) := by
  induction specs generalizing s with
  | nil => rfl
  | cons sp rest ih =>
    by_cases h : (sp.type.name == PIPELINE_CONTEXT_TYPE_NAME) = true
    · simp only [prepare_pass1, List.filter_cons, h, if_true, register_sequence, ih]
    · have h' : (sp.type.name == PIPELINE_CONTEXT_TYPE_NAME) = false := by
        simpa using h
      simp only [prepare_pass1, List.filter_cons, h', if_false, Bool.false_eq_true]
      exact ih s

/-- Pass 2 registers exactly the non-pipeline specs, in original order,
a pipeline-run spec with the collected pipeline contexts as parents and
any other spec with no parents. -/
theorem prepare_pass2_eq (specs : List ContextSpec) (s : Store)
    (pipeline_contexts : List Context) :
    prepare_pass2 s pipeline_contexts specs =
      register_sequence s
        (fun sp =>
          if sp.type.name == PIPELINE_RUN_CONTEXT_TYPE_NAME then pipeline_contexts
          else [])
        (specs.filter fun sp => !(sp.type.name == PIPELINE_CONTEXT_TYPE_NAME)) := by
  induction specs generalizing s with
  | nil => rfl
  | cons sp rest ih =>
    by_cases h : (sp.type.name == PIPELINE_CONTEXT_TYPE_NAME) = true
    · simp only [prepare_pass2, List.filter_cons, h, if_true, Bool.not_true, if_false,
        Bool.false_eq_true]
      exact ih s
    · have h' : (sp.type.name == PIPELINE_CONTEXT_TYPE_NAME) = false := by
        simpa using h
      simp only [prepare_pass2, List.filter_cons, h', if_false, Bool.not_false, if_true,
        Bool.false_eq_true, register_sequence, ih]

def specP1 : ContextSpec :=
  { type := { name := "pipeline" }, name := { field_value := .stringValue "p1" } }

def specP2 : ContextSpec :=
  { type := { name := "pipeline" }, name := { field_value := .stringValue "p2" } }

def specR1 : ContextSpec :=
  { type := { name := "pipeline_run" }, name := { field_value := .stringValue "r1" } }

def specO1 : ContextSpec :=
  { type := { name := "node" }, name := { field_value := .stringValue "o1" } }

/-- Claim C7: prepare_contexts is the two-pass algorithm — all
pipeline-typed specs registered first with no parents, their results
first in the output in encounter order, then every remaining spec in
original order appended after them; on the concrete batch
[PIPELINE p1, PIPELINE_RUN r1, OTHER o1] over the empty store the output
order is p1, r1, o1. -/
theorem prepare_contexts_two_pass :
    (∀ s specs, prepare_contexts s specs = prepare_contexts_spec s specs) ∧
    Except.map (fun sc => (sc.2.map Context.name))
        (prepare_contexts { } [specP1, specR1, specO1]) =
      .ok ["p1", "r1", "o1"] := by
  constructor
  · intro s specs
    unfold prepare_contexts prepare_contexts_spec
    rw [prepare_pass1_eq]
    simp only [prepare_pass2_eq]
  · rfl

/-- Claim C8: in pass 2 every pipeline-run spec is registered with the
full list of pipeline contexts collected in pass 1 as its parent set and
every other non-pipeline spec with the empty parent set; on the concrete
batch [PIPELINE p1, PIPELINE p2, PIPELINE_RUN r1] over the empty store,
r1 (context id 3) ends up linked to both p1 (id 1) and p2 (id 2). -/
theorem prepare_pass2_parent_sets :
    (∀ s pipeline_contexts specs,
      prepare_pass2 s pipeline_contexts specs =
        register_sequence s
          (fun sp =>
            if sp.type.name == PIPELINE_RUN_CONTEXT_TYPE_NAME then pipeline_contexts
            else [])
          (specs.filter fun sp => !(sp.type.name == PIPELINE_CONTEXT_TYPE_NAME))) ∧
    Except.map (fun sc => sc.1.parent_contexts)
        (prepare_contexts { } [specP1, specP2, specR1]) =
      .ok [ParentContext.mk 1 3, ParentContext.mk 2 3] := by
  exact ⟨fun s pcs specs => prepare_pass2_eq specs s pcs, rfl⟩

/-- Claim C9: the dispatcher imports the referenced class path first;
it runs a driver (carrying the supplied MLMD connection config) exactly
when the connection-config flag is set to a truthy value and otherwise
runs an executor with no store access; and it writes the serialized run
result to the invocation's execution_output_uri exactly when the run
produced a result.  run delegates to _run_python_custom_component. -/
theorem dispatch_trace (env : PyEnv) (executable_spec : ExecutableSpec)
    (execution_info : ExecutionInfo) :
    (run env executable_spec execution_info =
      _run_python_custom_component env executable_spec execution_info) ∧
    (_run_python_custom_component env executable_spec execution_info).head? =
      some (.importClassPath executable_spec.class_path) ∧
    (∀ c, DispatchAction.runDriver c ∈
        _run_python_custom_component env executable_spec execution_info ↔
      (env.mlmd_connection_config_flag = some c ∧
        flag_is_set env.mlmd_connection_config_flag = true)) ∧
    (DispatchAction.runExecutor ∈
        _run_python_custom_component env executable_spec execution_info ↔
      flag_is_set env.mlmd_connection_config_flag = false) ∧
    (∀ uri payload, DispatchAction.writeOutput uri payload ∈
        _run_python_custom_component env executable_spec execution_info ↔
      (uri = execution_info.execution_output_uri ∧
        (if flag_is_set env.mlmd_connection_config_flag then env.driver_result
         else env.executor_result) = some payload)) := by
  obtain ⟨flag, dr, er⟩ := env
  cases flag with
  | none =>
    cases er <;>
      simp [run, _run_python_custom_component, flag_is_set, and_comm, eq_comm]
  | some cfg =>
    by_cases hc : cfg.isEmpty = true
    · cases er <;>
        simp [run, _run_python_custom_component, flag_is_set, hc, and_comm, eq_comm]
    · have hc' : cfg.isEmpty = false := by simpa using hc
      cases dr <;>
        simp [run, _run_python_custom_component, flag_is_set, hc', and_comm, eq_comm]

/-- Witness for C9 at a concrete driver-mode environment that produces a
result: the trace imports, runs the driver with the supplied config, and
writes the result to the output uri. -/
theorem dispatch_trace_witness :
    DispatchAction.writeOutput "uri0" "out" ∈
      _run_python_custom_component
        { mlmd_connection_config_flag := some "cfg0", driver_result := some "out",
          executor_result := none }
        (.pythonClass "a.B") { execution_output_uri := "uri0" } := by
  have h := (dispatch_trace
    { mlmd_connection_config_flag := some "cfg0", driver_result := some "out",
      executor_result := none }
    (.pythonClass "a.B") { execution_output_uri := "uri0" }).2.2.2.2 "uri0" "out"
  exact h.mpr ⟨rfl, by decide⟩

/-- Witness for C6: a fresh edge is inserted once and the second call is
a no-op; a schema-mismatch failure passes through the except clause. -/
theorem put_parent_context_idempotent_witness :
    put_parent_context_if_not_exists { } 1 2 =
      .ok { parent_contexts := [ParentContext.mk 1 2] } ∧
    put_parent_context_if_not_exists { parent_contexts := [ParentContext.mk 1 2] } 1 2 =
      .ok { parent_contexts := [ParentContext.mk 1 2] } ∧
    catch_already_exists (.error (.registrationRace "x")) { } =
      .error (.registrationRace "x") := by
  refine ⟨?_, ?_, ?_⟩
  · exact put_parent_context_idempotent.1 { } 1 2 (by decide)
  · exact put_parent_context_idempotent.2.1 { parent_contexts := [ParentContext.mk 1 2] } 1 2
      (by decide)
  · exact put_parent_context_idempotent.2.2.2 _ { } (.registrationRace "x") rfl (by decide)

end Tfx
